import Mathlib

/-!
Verification of the visit aggregation engine and report assembler of
`src/api/V1/recordingUtil.ts`: the windowed fetch loop of `queryVisits`
(lines 667-790), its finalization and resumption-offset logic, and the
chronological interleave of `reportVisits` (lines 851-970).

Embedding conventions:
* Timestamps are integers; moments are totally ordered and `isAfter` is
  strict `>`.
* The DeviceSummary collaborator lives in `Visits.ts`, which is not among
  the sources here; `queryVisits` only invokes its methods, so the loop is
  stated over an arbitrary `SummaryModel`.  Where a claim touches the
  collaborator's own behaviour a model written from the spec is used and
  marked `Modelled from the spec:`.
* JavaScript truthiness, `null`/`undefined` and object-to-primitive
  coercions are spelled out at each site where they matter.
* `Array.prototype.sort` is a stable sort (ECMAScript 2019 and the engines
  running this server); it is modelled as stable `List.mergeSort` under the
  ordering a comparator induces, where `a` may stay before `b` exactly when
  the comparator result is not positive.
-/

namespace RecordingUtil

/-- Timestamps, modelled as integers. -/
abbrev Time := Int

/-- One matched audio-bait playback event, after `queryVisits` has written the
bulk-looked-up file name onto `dataValues.fileName` (`none` models a JS
`undefined` left by a missed lookup). -/
structure AudioBaitEvent where
  dateTime : Time
  fileId : Nat
  volume : Option Int
  fileName : Option String
deriving DecidableEq

/-- One per-recording visit event carried by a visit. -/
structure VisitEvent where
  recID : Nat
  trackID : Nat
  start : Time
  endTime : Time
  confidence : Int
  assumedTag : String
  what : String
deriving DecidableEq

/-- A visit as consumed by the post-loop code of `queryVisits` and by
`reportVisits`. -/
structure Visit where
  visitID : Nat
  deviceName : String
  groupName : String
  start : Time
  endTime : Time
  queryOffset : Int
  complete : Bool
  events : List VisitEvent
  audioBaitEvents : List AudioBaitEvent
  assumedTag : String
  what : String
  audioBaitVisit : Bool
deriving DecidableEq

/-- The Time-Window Source: a page fetch keyed by offset and limit, plus the
total count that `findAndCountAll` reports on the first iteration.  The spec
only assumes the order is deterministic for fixed parameters, so the fetch is
an arbitrary function; recordings themselves are opaque (`ρ`). -/
structure Source (ρ : Type) where
  count : Nat
  fetch : Nat → Int → List ρ

/-- The interface of the DeviceSummary collaborator (`Visits.ts`), restricted
to the methods `queryVisits` calls.  `generateVisits` receives the page, the
original request offset, the `gotAllRecordings` flag and the requesting user
id, exactly as at lines 733-738. -/
structure SummaryModel (σ : Type) (ρ : Type) where
  empty : σ
  generateVisits : σ → List ρ → Nat → Bool → Nat → σ
  checkForCompleteVisits : σ → σ
  completeVisitsCount : σ → Nat
  markCompleted : σ → σ
  removeIncompleteVisits : σ → σ
  completeVisits : σ → List Visit
  earliestIncompleteOffset : σ → Option Int
  allAudioFileIds : σ → List Nat

/-- Line 679. -/
def maxVisitQueryResults : Int := 5000

/-- Line 685: `queryMax = maxVisitQueryResults * 2`. -/
def queryMax : Int := maxVisitQueryResults * 2

/-- Lines 680-683: `request.query.limit == null ? maxVisitQueryResults :
request.query.limit` (JS `== null` also matches `undefined`, hence `none`). -/
def requestVisitsOf : Option Int → Int
  | none => maxVisitQueryResults
  | some l => l

/-- Lines 686-689: `queryLimit = queryMax; if (request.query.limit) queryLimit
= Math.min(request.query.limit * 2, queryMax)`.  The guard is a JS truthiness
test, so a caller limit of 0 leaves `queryLimit = queryMax`. -/
def initQueryLimit : Option Int → Int
  | some l => if l ≠ 0 then min (l * 2) queryMax else queryMax
  | none => queryMax

/-- JS evaluation of `n >= rows` at line 725, where `rows` is an array of
recording objects.  The array is coerced to a primitive by joining its
elements: the empty array gives `""`, whose numeric value is 0; a nonempty
array of objects gives a string such as `"[object Object],..."`, whose numeric
value is NaN, and every relational comparison against NaN is false. -/
def jsNumGeRows {ρ : Type} (n : Int) (rows : List ρ) : Bool :=
  if rows.isEmpty then decide (0 ≤ n) else false

/-- JS truthiness of `totalCount` at line 716: `undefined` before the first
iteration, and a count of 0 is falsy. -/
def jsTruthyCount : Option Nat → Bool
  | none => false
  | some n => decide (n ≠ 0)

/-- State of the windowed fetch loop (lines 711-747).  `offset` and `limit`
are `builder.query.offset` / `builder.query.limit`; `fetchCount` and
`fetchTrace` instrument the fetches issued, which the source code performs by
effect. -/
structure LoopState (σ : Type) where
  offset : Nat
  limit : Int
  totalCount : Option Nat
  numRecordings : Nat
  remainingVisits : Int
  gotAllRecordings : Bool
  summary : σ
  fetchCount : Nat
  fetchTrace : List (Nat × Int)

/-- Outcome of one loop iteration: either fall through to the next guard
check, or leave the loop through the `break` at line 727. -/
inductive StepRes (σ : Type) where
  | next (s : LoopState σ)
  | broke (s : LoopState σ)

/-- State carried by either outcome. -/
def stepState {σ : Type} : StepRes σ → LoopState σ
  | .next s => s
  | .broke s => s

/-- Loop guard of line 715: `while (gotAllRecordings || remainingVisits > 0)`;
the initially `undefined` flag is falsy. -/
def loopCond {σ : Type} (s : LoopState σ) : Bool :=
  s.gotAllRecordings || decide (s.remainingVisits > 0)

/-- One iteration of the fetch loop, lines 716-746: fetch the page (counting
on the first iteration only), accumulate `numRecordings`, recompute
`gotAllRecordings`, break on an empty page, feed the page to the summary,
re-check completeness unless exhausted, recompute `remainingVisits`, and
advance the builder's limit and offset. -/
def loopBody {σ ρ : Type} (src : Source ρ) (M : SummaryModel σ ρ)
    (origOffset userId : Nat) (requestVisits : Int) (s : LoopState σ) :
    StepRes σ :=
  let rows := src.fetch s.offset s.limit
  let tc := if jsTruthyCount s.totalCount then s.totalCount else some src.count
  let gotAll := jsNumGeRows ((rows.length : Int) + (s.offset : Int)) rows
  let s1 : LoopState σ :=
    { s with
      totalCount := tc
      numRecordings := s.numRecordings + rows.length
      gotAllRecordings := gotAll
      fetchCount := s.fetchCount + 1
      fetchTrace := s.fetchTrace ++ [(s.offset, s.limit)] }
  if rows.length = 0 then .broke s1
  else
    let sum1 := M.generateVisits s.summary rows origOffset gotAll userId
    let sum2 := if !gotAll then M.checkForCompleteVisits sum1 else sum1
    let remaining := requestVisits - (M.completeVisitsCount sum2 : Int)
    .next
      { s1 with
        summary := sum2
        remainingVisits := remaining
        limit := min (remaining * 2) queryMax
        offset := s1.offset + rows.length }

/-- The fetch loop run to completion, with `fuel` bounding the number of
iterations (the JS `while` carries no such bound). -/
def runLoop {σ ρ : Type} (src : Source ρ) (M : SummaryModel σ ρ)
    (origOffset userId : Nat) (requestVisits : Int) :
    Nat → LoopState σ → LoopState σ
  | 0, s => s
  | fuel + 1, s =>
    if loopCond s then
      match loopBody src M origOffset userId requestVisits s with
      | .broke s1 => s1
      | .next s1 => runLoop src M origOffset userId requestVisits fuel s1
    else s

/-- Loop state on entry (lines 706-713); the builder's offset defaults to the
request offset, taken as 0 when absent. -/
def initState {σ ρ : Type} (M : SummaryModel σ ρ) (lim : Option Int)
    (origOffset : Nat) : LoopState σ :=
  { offset := origOffset
    limit := initQueryLimit lim
    totalCount := none
    numRecordings := 0
    remainingVisits := requestVisitsOf lim
    gotAllRecordings := false
    summary := M.empty
    fetchCount := 0
    fetchTrace := [] }

/-- Ordering induced by the comparator of lines 759-761, `(a, b) => b.start >
a.start ? 1 : -1`: `a` may stay before `b` exactly when the comparator is not
positive, i.e. when `b.start ≤ a.start`. -/
def visitLE (a b : Visit) : Bool := decide (b.start ≤ a.start)

/-- The stable sort of line 759, giving visits in descending start order. -/
def sortVisitsDesc (l : List Visit) : List Visit := l.mergeSort visitLE

/-- Finalization of lines 750-755: on exhaustion promote every open visit to
complete, otherwise drop the visits not provably complete. -/
def finalizedSummary {σ ρ : Type} (M : SummaryModel σ ρ) (s : LoopState σ) :
    σ :=
  if s.gotAllRecordings then M.markCompleted s.summary
  else M.removeIncompleteVisits s.summary

/-- Lines 774-780: write the bulk-looked-up file name onto each matched audio
event of a visit; a key the lookup does not resolve leaves the JS value
`undefined`, i.e. `none`. -/
def assignFileNames (lookup : Nat → Option String) (v : Visit) : Visit :=
  { v with
    audioBaitEvents :=
      v.audioBaitEvents.map fun b => { b with fileName := lookup b.fileId } }

/-- The record returned by `queryVisits` (lines 781-789).  `queryOffset` is
`Option` valued because the JS value can be `null` when there is no incomplete
visit and no returned visit. -/
structure QueryVisitsResult (σ : Type) where
  visits : List Visit
  summary : σ
  hasMoreVisits : Bool
  queryOffset : Option Int
  totalRecordings : Option Nat
  numRecordings : Nat
  numVisits : Nat

/-- Lines 749-789, the code after the loop: finalize the summary, sort the
complete visits by descending start, derive the resumption offset (the
earliest incomplete offset, else one past the last returned visit, else
`null`), resolve audio file names through the bulk lookup, and assemble the
result.  `lookup` models `models.File.getMultiple` keyed by file id. -/
def postProcess {σ ρ : Type} (M : SummaryModel σ ρ)
    (lookup : Nat → Option String) (s : LoopState σ) : QueryVisitsResult σ :=
  let sum1 := finalizedSummary M s
  let visits := sortVisitsDesc (M.completeVisits sum1)
  let qo : Option Int :=
    match M.earliestIncompleteOffset sum1, visits.getLast? with
    | some o, _ => some o
    | none, some v => some (v.queryOffset + 1)
    | none, none => none
  { visits := visits.map (assignFileNames lookup)
    summary := sum1
    hasMoreVisits := !s.gotAllRecordings
    queryOffset := qo
    totalRecordings := s.totalCount
    numRecordings := s.numRecordings
    numVisits := visits.length }

/-- The whole of `queryVisits` (lines 667-790): the windowed fetch loop from
the initial state, then the post-loop finalization. -/
def queryVisits {σ ρ : Type} (src : Source ρ) (M : SummaryModel σ ρ)
    (lookup : Nat → Option String) (lim : Option Int)
    (origOffset userId fuel : Nat) : QueryVisitsResult σ :=
  postProcess M lookup
    (runLoop src M origOffset userId (requestVisitsOf lim) fuel
      (initState M lim origOffset))

/-- A row emitted by the per-visit part of `reportVisits`, before flattening
to cells. -/
inductive ReportRow where
  | visitRow (v : Visit)
  | eventRow (e : VisitEvent)
  | audioBaitRow (b : AudioBaitEvent)
deriving DecidableEq

/-- Ordering induced by the bait comparator of lines 876-878, `(a, b) =>
moment(a.dateTime) > moment(b.dateTime) ? 1 : -1`: `a` may stay before `b`
exactly when the comparator is not positive, i.e. when `a.dateTime ≤
b.dateTime`. -/
def baitLE (a b : AudioBaitEvent) : Bool := decide (a.dateTime ≤ b.dateTime)

/-- The stable sort of lines 876-878, giving bait events ascending in time. -/
def sortBaitsAsc (l : List AudioBaitEvent) : List AudioBaitEvent :=
  l.mergeSort baitLE

/-- The `while (audioBaitBefore)` loop of lines 886-897, seen from the top of
the time-descending bait stack: emit every bait whose playback time is
strictly after `t` (`audioTime.isAfter(event.start)`), and keep the rest. -/
def flushBaits (t : Time) (stack : List AudioBaitEvent) :
    List AudioBaitEvent × List AudioBaitEvent :=
  (stack.takeWhile (fun b => decide (t < b.dateTime)),
   stack.dropWhile (fun b => decide (t < b.dateTime)))

/-- Lines 880-905: walk the visit's events, flushing the pending bait rows
before each event row, then flush the remaining baits.  The JS holdout
variable `audioEvent` plus the remaining ascending array is represented as a
single time-descending list whose head is the holdout; the push-back and
`reverse()` of lines 900-905 are then the trailing `stack.map`. -/
def emitEvents : List VisitEvent → List AudioBaitEvent → List ReportRow
  | [], stack => stack.map .audioBaitRow
  | e :: es, stack =>
    ((flushBaits e.start stack).1.map .audioBaitRow) ++
      .eventRow e :: emitEvents es (flushBaits e.start stack).2

/-- Rows emitted for one visit by `reportVisits` (lines 873-906): the visit
row, then events and bait rows interleaved in descending time. -/
def visitReportRows (v : Visit) : List ReportRow :=
  .visitRow v :: emitEvents v.events (sortBaitsAsc v.audioBaitEvents).reverse

/-- Rendering of a JS string cell at the export boundary: a cell holding
`undefined` is rendered as the empty string (`Array.prototype.join`). -/
def jsCell : Option String → String
  | none => ""
  | some s => s

/-- JS string concatenation with a possibly `undefined` left operand, as in
`audioPlayed += " vol " + volume` at line 952: `undefined` is coerced to the
text `"undefined"`. -/
def jsShow : Option String → String
  | none => "undefined"
  | some s => s

/-- Timezone-aware date formatting is outside this core; dates are rendered by
the timestamp value. -/
def formatDate (t : Time) : String := toString t

/-- Time-of-day rendering, same convention as `formatDate`. -/
def formatTime (t : Time) : String := toString t

/-- The url-join of line 945. -/
def urljoin (base a b : String) : String := base ++ "/" ++ a ++ "/" ++ b

/-- JS `Boolean.prototype.toString`. -/
def boolCell (b : Bool) : String := if b then "true" else "false"

/-- Lines 910-927, `addVisitRow`. -/
def addVisitRow (v : Visit) : List String :=
  [toString v.visitID, v.deviceName, v.groupName, "Visit", v.assumedTag,
   v.what, "", formatDate v.start, formatTime v.start, formatTime v.endTime,
   "", toString v.events.length, boolCell v.audioBaitVisit, ""]

/-- Lines 929-947, `addEventRow`. -/
def addEventRow (base : String) (e : VisitEvent) : List String :=
  ["", "", "", "Event", e.assumedTag, e.what, toString e.recID,
   formatDate e.start, formatTime e.start, formatTime e.endTime,
   toString e.confidence ++ "%", "", "",
   urljoin base (toString e.recID) (toString e.trackID)]

/-- Lines 949-970, `addAudioBaitRow`.  `if (...details.volume)` is a JS
truthiness test, so a volume of 0 skips the suffix; when the file name is
unresolved the `What` cell holds `undefined` (rendered blank) and the
`Audio Played` cell concatenates the text `"undefined"`. -/
def addAudioBaitRow (b : AudioBaitEvent) : List String :=
  let audioPlayed :=
    match b.volume with
    | some v =>
      if v ≠ 0 then jsShow b.fileName ++ " vol " ++ toString v
      else jsCell b.fileName
    | none => jsCell b.fileName
  ["", "", "", "Audio Bait", "", jsCell b.fileName, "",
   formatDate b.dateTime, formatTime b.dateTime, "", "", "", audioPlayed, ""]

/-- Dispatch of a structured row to its cell renderer. -/
def renderRow (base : String) : ReportRow → List String
  | .visitRow v => addVisitRow v
  | .eventRow e => addEventRow base e
  | .audioBaitRow b => addAudioBaitRow b

/-- The rendered per-visit section of the `reportVisits` output. -/
def renderedVisitReport (base : String) (v : Visit) : List (List String) :=
  (visitReportRows v).map (renderRow base)

/-- The time carried by each emitted row: event rows are dated by the event
start, audio-bait rows by the playback time; the visit header row carries
none. -/
def rowTimes : List ReportRow → List Time
  | [] => []
  | .visitRow _ :: rs => rowTimes rs
  | .eventRow e :: rs => e.start :: rowTimes rs
  | .audioBaitRow b :: rs => b.dateTime :: rowTimes rs

/-- The audio-bait events of a row sequence, in emission order. -/
def baitRowsOf : List ReportRow → List AudioBaitEvent
  | [] => []
  | .audioBaitRow b :: rs => b :: baitRowsOf rs
  | .visitRow _ :: rs => baitRowsOf rs
  | .eventRow _ :: rs => baitRowsOf rs

/-- A degenerate DeviceSummary behaviour used only to evaluate loop-level
theorems at concrete inputs: it never produces a visit.  The loop theorems
themselves are proved for every model. -/
def unitModel (ρ : Type) : SummaryModel Unit ρ :=
  { empty := ()
    generateVisits := fun s _ _ _ _ => s
    checkForCompleteVisits := id
    completeVisitsCount := fun _ => 0
    markCompleted := id
    removeIncompleteVisits := id
    completeVisits := fun _ => []
    earliestIncompleteOffset := fun _ => none
    allAudioFileIds := fun _ => [] }

/-- Modelled from the spec: the state of the DeviceSummary collaborator, whose
implementation (`Visits.ts`) is not among the sources here — the visits built
so far, each carrying its completeness flag and query offset (spec 4.2). -/
structure SpecSummary where
  visits : List Visit
deriving DecidableEq

/-- Minimum of a list of offsets, `none` on the empty list. -/
def minOffset : List Int → Option Int
  | [] => none
  | x :: xs =>
    match minOffset xs with
    | none => some x
    | some y => some (min x y)

/-- Modelled from the spec: `earliestIncompleteOffset()` is "the minimum
`queryOffset` among incomplete visits, or null if none" (spec 4.2). -/
def SpecSummary.earliestIncompleteOffset (s : SpecSummary) : Option Int :=
  minOffset ((s.visits.filter fun v => !v.complete).map Visit.queryOffset)

/-- Modelled from the spec: `markCompleted()` "promotes all remaining open
visits to complete" (spec 4.2). -/
def SpecSummary.markCompleted (s : SpecSummary) : SpecSummary :=
  ⟨s.visits.map fun v => { v with complete := true }⟩

/-- Modelled from the spec: `completeVisits()` returns only the finalized
visits (spec 4.2). -/
def SpecSummary.completeVisits (s : SpecSummary) : List Visit :=
  s.visits.filter fun v => v.complete

/-- Modelled from the spec: `removeIncompleteVisits()` discards the visits not
provably complete.  Discarding is observational in this model: such visits are
never returned by `completeVisits`, while their offsets stay visible to
`earliestIncompleteOffset`, whose minimum "becomes the resumption point"
(spec 4.2). -/
def SpecSummary.removeIncompleteVisits (s : SpecSummary) : SpecSummary := s

/-- Modelled from the spec: a DeviceSummary instance over `SpecSummary`.
Visit construction itself (spec 4.1) is not exercised by any claim settled
against this instance — only the finalization and offset bookkeeping are — so
`generateVisits` and `checkForCompleteVisits` leave the state unchanged. -/
def specModel (ρ : Type) : SummaryModel SpecSummary ρ :=
  { empty := ⟨[]⟩
    generateVisits := fun s _ _ _ _ => s
    checkForCompleteVisits := id
    completeVisitsCount := fun s => s.completeVisits.length
    markCompleted := SpecSummary.markCompleted
    removeIncompleteVisits := SpecSummary.removeIncompleteVisits
    completeVisits := SpecSummary.completeVisits
    earliestIncompleteOffset := SpecSummary.earliestIncompleteOffset
    allAudioFileIds := fun s =>
      (s.visits.map fun v => v.audioBaitEvents.map AudioBaitEvent.fileId).flatten }

/-- A source reporting a total count of two and serving both recordings in
the first page; used to evaluate the claim C1 divergence. -/
def twoRecSource : Source Unit := { count := 2, fetch := fun _ _ => [(), ()] }

/-- A source whose every page is empty, for the claim C4 witness. -/
def emptySource : Source Unit := { count := 5, fetch := fun _ _ => [] }

/-- A mid-loop boundary state for the claim C4 witness: one fetch already done,
total count 5 declared, two visits still wanted. -/
def c4State : LoopState Unit :=
  { offset := 0, limit := 10, totalCount := some 5, numRecordings := 3,
    remainingVisits := 2, gotAllRecordings := false, summary := (),
    fetchCount := 1, fetchTrace := [(0, 10)] }

/-- A complete visit used in witnesses: the newest one. -/
def cVisitNew : Visit :=
  { visitID := 1, deviceName := "dev", groupName := "grp", start := 10,
    endTime := 11, queryOffset := 3, complete := true, events := [],
    audioBaitEvents := [], assumedTag := "cat", what := "cat",
    audioBaitVisit := false }

/-- A complete visit used in witnesses: the oldest complete one. -/
def cVisitOld : Visit :=
  { visitID := 2, deviceName := "dev", groupName := "grp", start := 2,
    endTime := 3, queryOffset := 7, complete := true, events := [],
    audioBaitEvents := [], assumedTag := "rat", what := "rat",
    audioBaitVisit := false }

/-- An incomplete visit used in witnesses, holding the earliest incomplete
offset. -/
def cVisitPending : Visit :=
  { visitID := 3, deviceName := "dev", groupName := "grp", start := 0,
    endTime := 1, queryOffset := 5, complete := false, events := [],
    audioBaitEvents := [], assumedTag := "", what := "",
    audioBaitVisit := false }

/-- A boundary state over the spec-modelled summary, used by the claim C6
witness: the loop stopped with the target met, leaving one incomplete visit. -/
def c6State : LoopState SpecSummary :=
  { offset := 9, limit := 4, totalCount := some 20, numRecordings := 9,
    remainingVisits := 0, gotAllRecordings := false,
    summary := ⟨[cVisitNew, cVisitOld, cVisitPending]⟩, fetchCount := 2,
    fetchTrace := [] }

/-- Scenario 3 of the spec: the visit event at t = 10. -/
def scenarioEventTen : VisitEvent :=
  { recID := 1, trackID := 1, start := 10, endTime := 11, confidence := 90,
    assumedTag := "possum", what := "possum" }

/-- Scenario 3 of the spec: the visit event at t = 0. -/
def scenarioEventZero : VisitEvent :=
  { recID := 2, trackID := 1, start := 0, endTime := 1, confidence := 80,
    assumedTag := "possum", what := "possum" }

/-- Scenario 3 of the spec: the audio-bait event at t = 5. -/
def scenarioBaitFive : AudioBaitEvent :=
  { dateTime := 5, fileId := 42, volume := some 8, fileName := none }

/-- Scenario 3 of the spec: a visit whose events sit at t = 10 and t = 0
(stored newest first) with an audio bait at t = 5. -/
def scenarioVisit : Visit :=
  { visitID := 9, deviceName := "dev", groupName := "grp", start := 0,
    endTime := 11, queryOffset := 0, complete := true,
    events := [scenarioEventTen, scenarioEventZero],
    audioBaitEvents := [scenarioBaitFive], assumedTag := "possum",
    what := "possum", audioBaitVisit := true }

/-- Claim C1, evaluated at the failing input: on the first iteration the page
holds 2 rows at offset 0 and the source reports a total count of 2, so the
page size plus the offset reaches the total count, yet the code leaves
`gotAllRecordings` false — line 725 compares `recordings.length +
builder.query.offset` against the `recordings` array itself (NaN under JS
coercion for a nonempty page) instead of against `totalCount`. -/
theorem queryVisits_c1_gotAllRecordings_bug :
    (stepState (loopBody twoRecSource (unitModel Unit) 0 0
        (requestVisitsOf (some 5))
        (initState (unitModel Unit) (some 5) 0))).gotAllRecordings = false ∧
    ((twoRecSource.fetch 0 (initState (unitModel Unit) (some 5) 0).limit).length : Int) +
        ((initState (unitModel Unit) (some 5) 0).offset : Int) ≥
      (twoRecSource.count : Int) := by
  exact ⟨rfl, by decide⟩

/-- Claim C8: after the loop exactly one finalization is applied to the
summary before any result is produced — `markCompleted()` when
`gotAllRecordings` holds, `removeIncompleteVisits()` otherwise — and the
returned `hasMoreVisits` is the negation of `gotAllRecordings` (lines 749-755
and 781-789), for every behaviour of the DeviceSummary collaborator. -/
theorem queryVisits_c8_finalization {σ ρ : Type} (M : SummaryModel σ ρ)
    (lookup : Nat → Option String) (s : LoopState σ) :
    (postProcess M lookup s).summary =
      (if s.gotAllRecordings then M.markCompleted s.summary
       else M.removeIncompleteVisits s.summary) ∧
    (postProcess M lookup s).hasMoreVisits = !s.gotAllRecordings :=
  ⟨rfl, rfl⟩

/-- Claim C2: the loop ends exactly when `gotAllRecordings` is true or
`remainingVisits ≤ 0`, for every behaviour of the source and of the summary
collaborator.  At every reachable iteration boundary the flag is false — it
holds initially and after every non-breaking iteration — so the guard of line
715 continues precisely when neither condition holds; and the break of line
727 only fires with the flag already true, so whenever the loop stops one of
the two conditions holds. -/
theorem queryVisits_c2_loop_termination {σ ρ : Type} (src : Source ρ)
    (M : SummaryModel σ ρ) (origOffset userId : Nat) (requestVisits : Int) :
    (∀ (lim : Option Int) (oo : Nat),
      (initState M lim oo).gotAllRecordings = false) ∧
    (∀ s s1 : LoopState σ,
      loopBody src M origOffset userId requestVisits s = .next s1 →
      s1.gotAllRecordings = false) ∧
    (∀ s : LoopState σ, s.gotAllRecordings = false →
      (loopCond s = true ↔
        ¬(s.gotAllRecordings = true ∨ s.remainingVisits ≤ 0))) ∧
    (∀ s s1 : LoopState σ,
      loopBody src M origOffset userId requestVisits s = .broke s1 →
      s1.gotAllRecordings = true) := by
  refine ⟨fun lim oo => rfl, ?_, ?_, ?_⟩
  · intro s s1 h
    simp only [loopBody] at h
    by_cases hr : (src.fetch s.offset s.limit).length = 0
    · rw [if_pos hr] at h
      exact absurd h (by simp)
    · rw [if_neg hr] at h
      cases h
      have hne : ¬(src.fetch s.offset s.limit).isEmpty = true := by
        simp only [List.isEmpty_iff]
        intro hnil
        exact hr (by simp [hnil])
      simp [jsNumGeRows, hne]
  · intro s hs
    simp [loopCond, hs]
  · intro s s1 h
    simp only [loopBody] at h
    by_cases hr : (src.fetch s.offset s.limit).length = 0
    · rw [if_pos hr] at h
      cases h
      simp [jsNumGeRows, List.isEmpty_iff, List.length_eq_zero.mp hr]
    · rw [if_neg hr] at h
      exact absurd h (by simp)

/-- Claim C2 witness: at a concrete boundary state with the flag down and
three visits still wanted, the guard continues, matching the claim's
condition. -/
theorem queryVisits_c2_witness :
    loopCond (σ := Unit)
        { offset := 0, limit := 10, totalCount := none, numRecordings := 0,
          remainingVisits := 3, gotAllRecordings := false, summary := (),
          fetchCount := 0, fetchTrace := [] } = true ↔
      ¬((LoopState.gotAllRecordings (σ := Unit)
          { offset := 0, limit := 10, totalCount := none, numRecordings := 0,
            remainingVisits := 3, gotAllRecordings := false, summary := (),
            fetchCount := 0, fetchTrace := [] }) = true ∨
        (LoopState.remainingVisits (σ := Unit)
          { offset := 0, limit := 10, totalCount := none, numRecordings := 0,
            remainingVisits := 3, gotAllRecordings := false, summary := (),
            fetchCount := 0, fetchTrace := [] }) ≤ 0) :=
  (queryVisits_c2_loop_termination twoRecSource (unitModel Unit) 0 0
      5).2.2.1 _ rfl

/-- Claim C3: whenever the first iteration actually runs with a caller-supplied
limit, the first fetch uses `min(limit * 2, queryMax)` — the guard of line 715
only lets the loop start when `requestVisits = limit > 0`, so the truthiness
test of line 687 cannot see a zero limit — and every later iteration sets the
next fetch's limit to `min(remainingVisits * 2, queryMax)` with
`remainingVisits = requestVisits - completeVisitsCount()` at that boundary
(lines 744-745), for every behaviour of source and summary. -/
theorem queryVisits_c3_fetch_limits {σ ρ : Type} (src : Source ρ)
    (M : SummaryModel σ ρ) (origOffset userId : Nat) (lim : Option Int) :
    (∀ l : Int, lim = some l →
      loopCond (initState M lim origOffset) = true →
      (initState M lim origOffset).limit = min (l * 2) queryMax) ∧
    (∀ s s1 : LoopState σ,
      loopBody src M origOffset userId (requestVisitsOf lim) s = .next s1 →
      s1.limit = min (s1.remainingVisits * 2) queryMax ∧
      s1.remainingVisits =
        requestVisitsOf lim - (M.completeVisitsCount s1.summary : Int)) := by
  constructor
  · intro l hl hcond
    subst hl
    have hpos : (0 : Int) < l := by
      simpa [loopCond, initState, requestVisitsOf] using hcond
    have hne : l ≠ 0 := by omega
    simp [initState, initQueryLimit, hne]
  · intro s s1 h
    simp only [loopBody] at h
    by_cases hr : (src.fetch s.offset s.limit).length = 0
    · rw [if_pos hr] at h
      exact absurd h (by simp)
    · rw [if_neg hr] at h
      cases h
      exact ⟨rfl, rfl⟩

/-- Claim C3 witness: a caller limit of 3 makes the first fetch ask for 6
recordings. -/
theorem queryVisits_c3_witness :
    (initState (unitModel Unit) (some 3) 0).limit = min ((3 : Int) * 2) queryMax :=
  (queryVisits_c3_fetch_limits twoRecSource (unitModel Unit) 0 0
      (some 3)).1 3 rfl (by decide)

/-- Claim C4: when a fetch returns zero rows while the declared total count is
not yet reached, the loop breaks at once — no further fetch is issued for any
remaining fuel and the summary is left untouched by the breaking iteration —
no error is raised (the run is a total function of the state), and the
function returns the visits gathered so far, finalized through
`markCompleted` since the empty page also raised `gotAllRecordings`. -/
theorem queryVisits_c4_zero_rows {σ ρ : Type} (src : Source ρ)
    (M : SummaryModel σ ρ) (lookup : Nat → Option String)
    (origOffset userId : Nat) (requestVisits : Int) (s : LoopState σ) (n : Nat)
    (hcount : s.totalCount = some n) (hnotdone : s.offset < n)
    (hcond : loopCond s = true)
    (hrows : src.fetch s.offset s.limit = []) :
    ∀ fuel : Nat,
      runLoop src M origOffset userId requestVisits (fuel + 1) s =
        { s with
          gotAllRecordings := true
          fetchCount := s.fetchCount + 1
          fetchTrace := s.fetchTrace ++ [(s.offset, s.limit)] } ∧
      (postProcess M lookup
          (runLoop src M origOffset userId requestVisits (fuel + 1) s)).visits =
        (sortVisitsDesc (M.completeVisits (M.markCompleted s.summary))).map
          (assignFileNames lookup) := by
  intro fuel
  have hne : n ≠ 0 := by omega
  have hbody : loopBody src M origOffset userId requestVisits s =
      .broke
        { s with
          gotAllRecordings := true
          fetchCount := s.fetchCount + 1
          fetchTrace := s.fetchTrace ++ [(s.offset, s.limit)] } := by
    simp only [loopBody, hrows]
    simp [jsNumGeRows, jsTruthyCount, hcount, hne]
  have hrun : runLoop src M origOffset userId requestVisits (fuel + 1) s =
      { s with
        gotAllRecordings := true
        fetchCount := s.fetchCount + 1
        fetchTrace := s.fetchTrace ++ [(s.offset, s.limit)] } := by
    simp only [runLoop, hcond, if_true, hbody]
  refine ⟨hrun, ?_⟩
  rw [hrun]
  simp [postProcess, finalizedSummary]

/-- Claim C4 witness: from `c4State` the empty page stops the loop after
exactly one more fetch, and the result is assembled from the summary as it
stood at the break. -/
theorem queryVisits_c4_witness :
    runLoop emptySource (unitModel Unit) 0 0 2 1 c4State =
      { c4State with
        gotAllRecordings := true
        fetchCount := c4State.fetchCount + 1
        fetchTrace := c4State.fetchTrace ++ [(c4State.offset, c4State.limit)] } ∧
    (postProcess (unitModel Unit) (fun _ => none)
        (runLoop emptySource (unitModel Unit) 0 0 2 1 c4State)).visits =
      (sortVisitsDesc ((unitModel Unit).completeVisits
          ((unitModel Unit).markCompleted c4State.summary))).map
        (assignFileNames fun _ => none) :=
  queryVisits_c4_zero_rows emptySource (unitModel Unit) (fun _ => none) 0 0 2
    c4State 5 rfl (by decide) (by decide) rfl 0

/-- The visit ordering is transitive. -/
lemma visitLE_trans (a b c : Visit) (hab : visitLE a b = true)
    (hbc : visitLE b c = true) : visitLE a c = true := by
  simp only [visitLE, decide_eq_true_eq] at hab hbc ⊢
  exact le_trans hbc hab

/-- The visit ordering is total. -/
lemma visitLE_total (a b : Visit) : (visitLE a b || visitLE b a) = true := by
  simp only [visitLE, Bool.or_eq_true, decide_eq_true_eq]
  exact le_total b.start a.start

/-- The sorted visits are pairwise descending in start time. -/
lemma sortVisitsDesc_pairwise (l : List Visit) :
    (sortVisitsDesc l).Pairwise fun a b => b.start ≤ a.start :=
  (List.sorted_mergeSort visitLE_trans visitLE_total l).imp
    fun h => by simpa [visitLE] using h

/-- Stability of the sort of line 759: a set of visits that is already
internally ordered — in particular any set sharing one start time — keeps its
relative order. -/
lemma sortVisitsDesc_filter (l : List Visit) (p : Visit → Bool)
    (hp : ∀ a b, p a = true → p b = true → visitLE a b = true) :
    (sortVisitsDesc l).filter p = l.filter p := by
  have hpair : (l.filter p).Pairwise fun a b => visitLE a b = true :=
    List.pairwise_of_forall_mem_list fun a ha b hb =>
      hp a b (List.of_mem_filter ha) (List.of_mem_filter hb)
  have hsub : (l.filter p).Sublist (sortVisitsDesc l) :=
    List.sublist_mergeSort visitLE_trans visitLE_total hpair
      (List.filter_sublist l)
  have hsub2 := hsub.filter p
  have hid : (l.filter p).filter p = l.filter p := by
    simp [List.filter_filter]
  rw [hid] at hsub2
  have hlen : (l.filter p).length = ((sortVisitsDesc l).filter p).length :=
    (((List.mergeSort_perm l visitLE).filter p).length_eq).symm
  exact (hsub2.eq_of_length hlen).symm

/-- In a pairwise-related list the last element is reachable from every
member. -/
lemma rel_getLast_of_pairwise {α : Type} {R : α → α → Prop}
    (hrefl : ∀ a, R a a) :
    ∀ (l : List α) (v : α), l.Pairwise R → l.getLast? = some v →
      ∀ w ∈ l, R w v := by
  intro l
  induction l with
  | nil => intro v _ hl; simp at hl
  | cons a t ih =>
    intro v hp hl w hw
    cases t with
    | nil =>
      simp at hl hw
      subst hl
      subst hw
      exact hrefl _
    | cons b t2 =>
      rw [List.getLast?_cons_cons] at hl
      rcases List.mem_cons.mp hw with rfl | hw2
      · exact (List.pairwise_cons.mp hp).1 v (List.mem_of_mem_getLast? hl)
      · exact ih v (List.pairwise_cons.mp hp).2 hl w hw2

/-- Claim C7: the visits returned by `queryVisits` are sorted by start time
in descending order, and visits sharing a start time keep their relative
fetch order (the order `completeVisits()` produced them in), for every
behaviour of the summary collaborator.  JS `Array.prototype.sort` is stable,
modelled by `List.mergeSort` under the comparator's ordering. -/
theorem queryVisits_c7_sorted {σ ρ : Type} (M : SummaryModel σ ρ)
    (lookup : Nat → Option String) (s : LoopState σ) :
    ((postProcess M lookup s).visits.Pairwise fun a b => b.start ≤ a.start) ∧
    ∀ t : Time,
      (postProcess M lookup s).visits.filter (fun v => v.start == t) =
        ((M.completeVisits (finalizedSummary M s)).map
            (assignFileNames lookup)).filter (fun v => v.start == t) := by
  constructor
  · exact List.pairwise_map.mpr (sortVisitsDesc_pairwise _)
  · intro t
    show ((sortVisitsDesc (M.completeVisits (finalizedSummary M s))).map
        (assignFileNames lookup)).filter (fun v => v.start == t) = _
    rw [List.filter_map, List.filter_map]
    refine congrArg (List.map (assignFileNames lookup)) ?_
    exact sortVisitsDesc_filter _ _ fun a b ha hb => by
      simp only [Function.comp, assignFileNames, beq_iff_eq] at ha hb
      simp [visitLE, ha, hb]

/-- Claim C6: the resumption offset returned by `queryVisits` is
`earliestIncompleteOffset()` of the finalized summary; when that is null and
at least one visit is returned it is the last returned visit's `queryOffset`
plus one, and that last visit is oldest by start among the returned visits
(lines 762-766), for every behaviour of the summary collaborator. -/
theorem queryVisits_c6_query_offset {σ ρ : Type} (M : SummaryModel σ ρ)
    (lookup : Nat → Option String) (s : LoopState σ) :
    (postProcess M lookup s).queryOffset =
      (match M.earliestIncompleteOffset (finalizedSummary M s),
          (postProcess M lookup s).visits.getLast? with
        | some o, _ => some o
        | none, some v => some (v.queryOffset + 1)
        | none, none => none) ∧
    ∀ v, (postProcess M lookup s).visits.getLast? = some v →
      ∀ w ∈ (postProcess M lookup s).visits, v.start ≤ w.start := by
  constructor
  · show (match M.earliestIncompleteOffset (finalizedSummary M s),
        (sortVisitsDesc (M.completeVisits (finalizedSummary M s))).getLast? with
      | some o, _ => some o
      | none, some v => some (v.queryOffset + 1)
      | none, none => none) = _
    rw [show (postProcess M lookup s).visits =
        (sortVisitsDesc (M.completeVisits (finalizedSummary M s))).map
          (assignFileNames lookup) from rfl]
    rw [List.getLast?_map]
    cases M.earliestIncompleteOffset (finalizedSummary M s) with
    | some o => rfl
    | none =>
      cases (sortVisitsDesc (M.completeVisits (finalizedSummary M s))).getLast? with
      | some v => rfl
      | none => rfl
  · intro v hv w hw
    have hpair : (postProcess M lookup s).visits.Pairwise
        fun a b => b.start ≤ a.start :=
      List.pairwise_map.mpr (sortVisitsDesc_pairwise _)
    exact rel_getLast_of_pairwise (R := fun a b => b.start ≤ a.start)
      (fun a => le_refl a.start) _ v hpair hv w hw

/-- Claim C6 witness: with one incomplete visit at offset 5, the returned
resumption offset is 5, and the last returned visit is the oldest by start. -/
theorem queryVisits_c6_witness :
    (postProcess (specModel Unit) (fun _ => none) c6State).queryOffset =
      some 5 ∧
    cVisitOld.start ≤ cVisitNew.start := by
  constructor
  · refine ((queryVisits_c6_query_offset (specModel Unit) (fun _ => none)
      c6State).1).trans ?_
    simp [postProcess, finalizedSummary, specModel, c6State,
      SpecSummary.removeIncompleteVisits, SpecSummary.completeVisits,
      SpecSummary.earliestIncompleteOffset, minOffset, cVisitNew, cVisitOld,
      cVisitPending]
  · refine (queryVisits_c6_query_offset (specModel Unit) (fun _ => none)
      c6State).2 cVisitOld ?_ cVisitNew ?_ <;>
    simp [postProcess, finalizedSummary, specModel, c6State,
      SpecSummary.removeIncompleteVisits, SpecSummary.completeVisits,
      SpecSummary.earliestIncompleteOffset, minOffset, sortVisitsDesc,
      List.mergeSort, visitLE, assignFileNames, cVisitNew, cVisitOld,
      cVisitPending]

/-- The bait ordering is transitive. -/
lemma baitLE_trans (a b c : AudioBaitEvent) (hab : baitLE a b = true)
    (hbc : baitLE b c = true) : baitLE a c = true := by
  simp only [baitLE, decide_eq_true_eq] at hab hbc ⊢
  exact le_trans hab hbc

/-- The bait ordering is total. -/
lemma baitLE_total (a b : AudioBaitEvent) :
    (baitLE a b || baitLE b a) = true := by
  simp only [baitLE, Bool.or_eq_true, decide_eq_true_eq]
  exact le_total a.dateTime b.dateTime

/-- Row times distribute over append. -/
lemma rowTimes_append (l1 l2 : List ReportRow) :
    rowTimes (l1 ++ l2) = rowTimes l1 ++ rowTimes l2 := by
  induction l1 with
  | nil => rfl
  | cons r rs ih => cases r <;> simp [rowTimes, ih]

/-- Row times of a run of bait rows are the playback times. -/
lemma rowTimes_map_bait (l : List AudioBaitEvent) :
    rowTimes (l.map .audioBaitRow) = l.map AudioBaitEvent.dateTime := by
  induction l with
  | nil => rfl
  | cons b bs ih => simp [rowTimes, ih]

/-- Bait extraction distributes over append. -/
lemma baitRowsOf_append (l1 l2 : List ReportRow) :
    baitRowsOf (l1 ++ l2) = baitRowsOf l1 ++ baitRowsOf l2 := by
  induction l1 with
  | nil => rfl
  | cons r rs ih => cases r <;> simp [baitRowsOf, ih]

/-- Bait extraction undoes the bait-row injection. -/
lemma baitRowsOf_map_bait (l : List AudioBaitEvent) :
    baitRowsOf (l.map .audioBaitRow) = l := by
  induction l with
  | nil => rfl
  | cons b bs ih => simp [baitRowsOf, ih]

/-- The interleave emits the bait stack exactly, in stack order: every element
of the stack appears once and nothing else appears. -/
lemma baitRowsOf_emitEvents :
    ∀ (es : List VisitEvent) (stack : List AudioBaitEvent),
      baitRowsOf (emitEvents es stack) = stack := by
  intro es
  induction es with
  | nil => intro stack; simp [emitEvents, baitRowsOf_map_bait]
  | cons e es ih =>
    intro stack
    simp only [emitEvents, baitRowsOf_append, baitRowsOf_map_bait, baitRowsOf,
      ih, flushBaits]
    exact List.takeWhile_append_dropWhile _ _

/-- Every row time produced by the interleave is an event start or a stack
playback time. -/
lemma mem_rowTimes_emitEvents :
    ∀ (es : List VisitEvent) (stack : List AudioBaitEvent) (t : Time),
      t ∈ rowTimes (emitEvents es stack) →
      (∃ e ∈ es, t = e.start) ∨ ∃ b ∈ stack, t = b.dateTime := by
  intro es
  induction es with
  | nil =>
    intro stack t ht
    rw [emitEvents, rowTimes_map_bait] at ht
    obtain ⟨b, hb, rfl⟩ := List.mem_map.mp ht
    exact .inr ⟨b, hb, rfl⟩
  | cons e es ih =>
    intro stack t ht
    rw [emitEvents, rowTimes_append, rowTimes_map_bait] at ht
    rcases List.mem_append.mp ht with h1 | h2
    · obtain ⟨b, hb, rfl⟩ := List.mem_map.mp h1
      exact .inr ⟨b, (List.takeWhile_sublist _).mem hb, rfl⟩
    · rw [show rowTimes (ReportRow.eventRow e :: emitEvents es (flushBaits e.start stack).2) =
          e.start :: rowTimes (emitEvents es (flushBaits e.start stack).2) from rfl] at h2
      rcases List.mem_cons.mp h2 with rfl | h3
      · exact .inl ⟨e, List.mem_cons_self e es, rfl⟩
      · rcases ih _ t h3 with ⟨e2, he2, rfl⟩ | ⟨b, hb, rfl⟩
        · exact .inl ⟨e2, List.mem_cons_of_mem e he2, rfl⟩
        · exact .inr ⟨b, (List.dropWhile_sublist _).mem hb, rfl⟩

/-- Everything left on the stack after a flush is at or before the flushed
event's start. -/
lemma dropWhile_le_start (e : VisitEvent) (stack : List AudioBaitEvent)
    (hstack : stack.Pairwise fun a b => b.dateTime ≤ a.dateTime) :
    ∀ b ∈ stack.dropWhile (fun b => decide (e.start < b.dateTime)),
      b.dateTime ≤ e.start := by
  intro b hb
  cases hd : stack.dropWhile (fun b => decide (e.start < b.dateTime)) with
  | nil => rw [hd] at hb; simp at hb
  | cons b0 rest2 =>
    have h0 : decide (e.start < b0.dateTime) = false := by
      have h := List.head?_dropWhile_not
        (fun b : AudioBaitEvent => decide (e.start < b.dateTime)) stack
      rw [hd] at h
      exact h
    have h0le : b0.dateTime ≤ e.start := by
      simpa using h0
    rw [hd] at hb
    rcases List.mem_cons.mp hb with rfl | hb2
    · exact h0le
    · have hpair2 : (b0 :: rest2).Pairwise
          fun a b => b.dateTime ≤ a.dateTime := by
        rw [← hd]
        exact List.Pairwise.sublist (List.dropWhile_sublist _) hstack
      exact le_trans ((List.pairwise_cons.mp hpair2).1 b hb2) h0le

/-- The interleave of lines 880-905 emits times in non-increasing order
whenever the events are fed newest first and the stack is time-descending. -/
lemma chain_emitEvents :
    ∀ (es : List VisitEvent) (stack : List AudioBaitEvent),
      es.Pairwise (fun a b => b.start ≤ a.start) →
      stack.Pairwise (fun a b => b.dateTime ≤ a.dateTime) →
      (rowTimes (emitEvents es stack)).Chain' fun a b => b ≤ a := by
  intro es
  induction es with
  | nil =>
    intro stack _ hstack
    rw [emitEvents, rowTimes_map_bait]
    exact (List.pairwise_map.mpr hstack).chain'
  | cons e es ih =>
    intro stack hes hstack
    obtain ⟨he, hes2⟩ := List.pairwise_cons.mp hes
    have htake : ((flushBaits e.start stack).1).Pairwise
        (fun a b => b.dateTime ≤ a.dateTime) :=
      List.Pairwise.sublist (List.takeWhile_sublist _) hstack
    have hdropp : ((flushBaits e.start stack).2).Pairwise
        (fun a b => b.dateTime ≤ a.dateTime) :=
      List.Pairwise.sublist (List.dropWhile_sublist _) hstack
    rw [emitEvents, rowTimes_append, rowTimes_map_bait]
    rw [show rowTimes (ReportRow.eventRow e :: emitEvents es (flushBaits e.start stack).2) =
        e.start :: rowTimes (emitEvents es (flushBaits e.start stack).2) from rfl]
    refine List.chain'_append.mpr ⟨(List.pairwise_map.mpr htake).chain', ?_, ?_⟩
    · refine List.chain'_cons'.mpr ⟨?_, ih _ hes2 hdropp⟩
      intro y hy
      rcases mem_rowTimes_emitEvents _ _ y (List.mem_of_mem_head? hy) with
        ⟨e2, he2, rfl⟩ | ⟨b, hb, rfl⟩
      · exact he e2 he2
      · exact dropWhile_le_start e stack hstack b hb
    · intro x hx y hy
      have hx2 := List.mem_of_mem_getLast? hx
      obtain ⟨b, hb, rfl⟩ := List.mem_map.mp hx2
      simp only [flushBaits] at hb
      have hbp := List.mem_takeWhile_imp hb
      have hlt : e.start < b.dateTime := by simpa using hbp
      have hy2 : e.start = y := by simpa using hy
      rw [← hy2]
      exact le_of_lt hlt

/-- Claim C5: for a visit whose events are stored newest first — the order the
Visit Builder feeds them in — the rows `reportVisits` emits after the visit
row carry non-increasing times across event and audio-bait rows; in
particular the spec's scenario 3 emits event(t=10), bait(t=5), event(t=0), in
that order. -/
theorem reportVisits_c5_row_order (v : Visit)
    (hev : v.events.Pairwise fun a b => b.start ≤ a.start) :
    ((rowTimes (emitEvents v.events
        (sortBaitsAsc v.audioBaitEvents).reverse)).Chain'
      fun a b => b ≤ a) ∧
    visitReportRows scenarioVisit =
      [.visitRow scenarioVisit, .eventRow scenarioEventTen,
       .audioBaitRow scenarioBaitFive, .eventRow scenarioEventZero] := by
  constructor
  · refine chain_emitEvents _ _ hev ?_
    rw [List.pairwise_reverse]
    exact (List.sorted_mergeSort baitLE_trans baitLE_total
        v.audioBaitEvents).imp fun h => by simpa [baitLE] using h
  · simp [visitReportRows, scenarioVisit, sortBaitsAsc, List.mergeSort,
      emitEvents, flushBaits, scenarioEventTen, scenarioEventZero,
      scenarioBaitFive, List.takeWhile, List.dropWhile]

/-- Claim C5 witness: the spec's scenario 3 visit satisfies both parts. -/
theorem reportVisits_c5_witness :
    ((rowTimes (emitEvents scenarioVisit.events
        (sortBaitsAsc scenarioVisit.audioBaitEvents).reverse)).Chain'
      fun a b => b ≤ a) ∧
    visitReportRows scenarioVisit =
      [.visitRow scenarioVisit, .eventRow scenarioEventTen,
       .audioBaitRow scenarioBaitFive, .eventRow scenarioEventZero] :=
  reportVisits_c5_row_order scenarioVisit (by decide)

/-- Claim C10: per visit, the audio-bait rows `reportVisits` emits are exactly
the visit's audio-bait events, each once — the pop-and-push-back iteration
drops none and duplicates none. -/
theorem reportVisits_c10_bait_rows_exact (v : Visit) :
    (baitRowsOf (visitReportRows v)).Perm v.audioBaitEvents := by
  show (baitRowsOf (emitEvents v.events
      (sortBaitsAsc v.audioBaitEvents).reverse)).Perm _
  rw [baitRowsOf_emitEvents]
  exact (List.reverse_perm _).trans (List.mergeSort_perm _ _)

/-- A bait event found among the extracted bait rows is a bait row of the
sequence. -/
lemma audioBaitRow_mem_of_mem_baitRowsOf :
    ∀ (l : List ReportRow) (b : AudioBaitEvent),
      b ∈ baitRowsOf l → ReportRow.audioBaitRow b ∈ l := by
  intro l
  induction l with
  | nil => intro b hb; simp [baitRowsOf] at hb
  | cons r rs ih =>
    intro b hb
    cases r with
    | audioBaitRow b2 =>
      simp only [baitRowsOf] at hb
      rcases List.mem_cons.mp hb with rfl | h2
      · exact List.mem_cons_self _ _
      · exact List.mem_cons_of_mem _ (ih b h2)
    | visitRow v =>
      simp only [baitRowsOf] at hb
      exact List.mem_cons_of_mem _ (ih b hb)
    | eventRow e =>
      simp only [baitRowsOf] at hb
      exact List.mem_cons_of_mem _ (ih b hb)

/-- Claim C9: when the bulk audio-file lookup misses a file id, the report is
still produced — the bait row for that event is present — and the row's name
cell (the `What` column, index 5) is blank: the JS `undefined` cell renders as
the empty string at the export boundary. -/
theorem reportVisits_c9_missing_file_name (base : String)
    (lookup : Nat → Option String) (v : Visit) (b : AudioBaitEvent)
    (hb : b ∈ v.audioBaitEvents) (hmiss : lookup b.fileId = none) :
    addAudioBaitRow { b with fileName := none } ∈
      renderedVisitReport base (assignFileNames lookup v) ∧
    (addAudioBaitRow { b with fileName := none })[5]? = some "" := by
  constructor
  · have hb2 : ({ b with fileName := none } : AudioBaitEvent) ∈
        (assignFileNames lookup v).audioBaitEvents :=
      List.mem_map.mpr ⟨b, hb, by rw [hmiss]⟩
    have hmem : ReportRow.audioBaitRow { b with fileName := none } ∈
        visitReportRows (assignFileNames lookup v) := by
      apply audioBaitRow_mem_of_mem_baitRowsOf
      show _ ∈ baitRowsOf (emitEvents (assignFileNames lookup v).events
        (sortBaitsAsc (assignFileNames lookup v).audioBaitEvents).reverse)
      rw [baitRowsOf_emitEvents, List.mem_reverse]
      exact (List.mergeSort_perm _ _).mem_iff.mpr hb2
    exact List.mem_map_of_mem (renderRow base) hmem
  · rfl

/-- Claim C9 witness: the scenario bait's file id resolves to nothing, yet its
row is in the rendered report with a blank name cell. -/
theorem reportVisits_c9_witness :
    addAudioBaitRow { scenarioBaitFive with fileName := none } ∈
      renderedVisitReport "base" (assignFileNames (fun _ => none)
        scenarioVisit) ∧
    (addAudioBaitRow { scenarioBaitFive with fileName := none })[5]? =
      some "" :=
  reportVisits_c9_missing_file_name "base" (fun _ => none) scenarioVisit
    scenarioBaitFive (by decide) rfl

end RecordingUtil
